import Mathlib

/-!
Verification of the Dos_Santos repository (FreeRTOS demo
`Assimi-DEMBELE-Final-ASIGNMENT/main_blinky.c` plus the standalone
`insertion_sort.c` and `binary_search.c` utilities) against its
natural-language specification.

The C sources are shallowly embedded: task bodies become Lean functions
producing traces of observable actions, the bounded message queue (whose
FreeRTOS implementation is not part of the repository) is modelled from the
specification as a circular buffer with head index and occupancy count, and
the startup function `main_blinky` becomes a function from creation outcomes
to the list of startup steps it performs.
-/

namespace DosSantos

/-! ## Constants from `main_blinky.c`

`pdMS_TO_TICKS` converts milliseconds to scheduler ticks.  Modelled from the
spec: the configuration header fixing the tick rate is not in the repository;
the spec states the tunable periods directly in milliseconds (producer period
200 ms, timer period 2000 ms), so the conversion is taken as the identity. -/
def pdMS_TO_TICKS (ms : Nat) : Nat := ms

/-- `#define mainTASK_SEND_FREQUENCY_MS pdMS_TO_TICKS( 200UL )` -/
def mainTASK_SEND_FREQUENCY_MS : Nat := pdMS_TO_TICKS 200

/-- `#define mainTIMER_SEND_FREQUENCY_MS pdMS_TO_TICKS( 2000UL )` -/
def mainTIMER_SEND_FREQUENCY_MS : Nat := pdMS_TO_TICKS 2000

/-- `#define mainQUEUE_LENGTH ( 2 )` -/
def mainQUEUE_LENGTH : Nat := 2

/-- `#define mainVALUE_SENT_FROM_TASK ( 100UL )` -/
def mainVALUE_SENT_FROM_TASK : Nat := 100

/-- `#define mainVALUE_SENT_FROM_TIMER ( 200UL )` -/
def mainVALUE_SENT_FROM_TIMER : Nat := 200

/-! ## The consumer task `prvQueueReceiveTask`

Each loop iteration performs a blocking receive and prints exactly one of
three console lines depending on the received 32-bit value.  The body of one
iteration, given the delivered value, is `prvQueueReceiveTask_body`; a run of
the loop over a finite list of delivered messages is
`prvQueueReceiveTask_run`. -/

/-- The `if / else if / else` classification in the body of
`prvQueueReceiveTask` (main_blinky.c lines 373-384). -/
def prvQueueReceiveTask_body (ulReceivedValue : Nat) : String :=
  if ulReceivedValue = mainVALUE_SENT_FROM_TASK then
    "Message received from task\n"
  else if ulReceivedValue = mainVALUE_SENT_FROM_TIMER then
    "Message received from software timer\n"
  else
    "Unexpected message\n"

/-- The receive loop of `prvQueueReceiveTask`, run over the finite list of
messages delivered by successive blocking receives.  The recursion carries no
state besides the remaining input: each iteration only reads one value and
emits one report. -/
def prvQueueReceiveTask_run : List Nat → List String
  | [] => []
  | v :: rest => prvQueueReceiveTask_body v :: prvQueueReceiveTask_run rest

/-! ## Task4_BinarySearch (main_blinky.c lines 166-195) -/

/-- The fixed array of `Task4_BinarySearch`: `sortedList[i] = i * 2` for
`i` in `0..49`. -/
def task4_sortedList : List Int := (List.range 50).map fun i => (i : Int) * 2

/-- `const int target = 25;` in `Task4_BinarySearch`. -/
def task4_target : Int := 25

/-- The binary-search `while` loop of `Task4_BinarySearch`.  `fuel` bounds
the number of iterations so the embedding is total; the loop returning
`some index` means it terminated with that value of `index`, `none` means
the fuel ran out.  `low`, `high` and `mid` are C `int`s, embedded as `Int`;
`(low + high) / 2` is C truncating division, which coincides with `Int.div`
(both operands stay nonnegative here, where it also coincides with `/`). -/
def task4_loop (low high : Int) : Nat → Option Int
  | 0 => none
  | fuel + 1 =>
    if low ≤ high then
      let mid := (low + high) / 2
      let entry := task4_sortedList.getD mid.toNat 0
      if entry = task4_target then
        some mid
      else if entry < task4_target then
        task4_loop (mid + 1) high fuel
      else
        task4_loop low (mid - 1) fuel
    else
      some (-1)

/-- One iteration of the outer `while (1)` loop of `Task4_BinarySearch`:
run the search with `low = 0, high = 49, index = -1`, then print the result
line.  `none` would mean the inner loop failed to terminate within `fuel`
iterations. -/
def task4_iteration (fuel : Nat) : Option String :=
  (task4_loop 0 49 fuel).map fun index =>
    if index ≠ -1 then
      "Element 25 found at index " ++ toString index ++ "\n"
    else
      "Element 25 not found\n"

/-! ## Task5_ResetHandler (main_blinky.c lines 197-222)

One iteration of the `while (1)` loop, as a trace of its observable steps.
The outcome of `scanf("%d", &input)` is embedded as an `Option Int`:
`some v` when the call returns 1 having parsed the integer `v`, `none` when
the line is unparseable. -/

/-- FreeRTOS `portMAX_DELAY` for a 32-bit tick type: an unbounded wait. -/
def portMAX_DELAY : Nat := 2 ^ 32 - 1

/-- Observable steps of one `Task5_ResetHandler` iteration. -/
inductive Task5Step
  | takeMutex (ticksToWait : Nat)
  | printT (s : String)
  | discardLine
  | giveMutex
  | delay (ticks : Nat)
  deriving DecidableEq

/-- One iteration of `Task5_ResetHandler`: take the mutex with an unbounded
wait, prompt, classify the `scanf` outcome, release the mutex, delay.  The
`none` branch mirrors the getchar loop that clears the input buffer as a
single `discardLine` step. -/
def Task5_ResetHandler_iteration (scanfResult : Option Int) : List Task5Step :=
  Task5Step.takeMutex portMAX_DELAY ::
  Task5Step.printT "Enter \x271\x27 to RESET, or \x270\x27 to continue: " ::
  ((match scanfResult with
    | some input =>
      if input = 1 then
        [Task5Step.printT ("Reset received: " ++ toString input ++ "\n")]
      else
        [Task5Step.printT ("Reset value: " ++ toString input ++ "\n")]
    | none =>
      [Task5Step.printT "Invalid input. Please enter a valid number.\n",
       Task5Step.discardLine]) ++
   [Task5Step.giveMutex, Task5Step.delay (pdMS_TO_TICKS 200)])

/-! ## The bounded message queue

The queue implementation lives in the FreeRTOS kernel, which is not part of
this repository; it is modelled from the spec (section 3, Bounded Queue):
fixed capacity, element storage buffer, a head index for the oldest message,
and a count of occupied slots, with send writing at the circular position
`(head + count) % capacity` and receive popping at `head`. -/

/-- Modelled from the spec: the Bounded Queue state — a fixed-size circular
storage buffer, the index of the oldest occupied slot, and the number of
occupied slots.  (The waiting-task lists of the spec are omitted: every send
in this program is non-blocking and the blocking receive is modelled by
feeding the consumer the delivered messages directly.) -/
structure BoundedQueue where
  capacity : Nat
  storage : List Nat
  head : Nat
  count : Nat
  deriving DecidableEq

/-- Well-formedness of a queue state: the buffer has exactly `capacity`
slots, the head index is in range, and `0 ≤ count ≤ capacity` (the invariant
stated by the spec). -/
def BoundedQueue.WF (q : BoundedQueue) : Prop :=
  q.storage.length = q.capacity ∧ q.head < q.capacity ∧ q.count ≤ q.capacity

instance (q : BoundedQueue) : Decidable q.WF := by
  unfold BoundedQueue.WF; infer_instance

/-- The messages currently stored, oldest first: slot `head + i` (mod
`capacity`) for `i < count`. -/
def BoundedQueue.contents (q : BoundedQueue) : List Nat :=
  (List.range q.count).map fun i => q.storage.getD ((q.head + i) % q.capacity) 0

/-- Modelled from the spec: `send(message, timeout)` on the non-blocking
path, the only one this program uses (every `xQueueSend` call passes block
time `0U`): if a free slot exists the message is copied in at the circular
position past the newest message and `count` is incremented; if the queue is
full the send fails immediately with a "full" condition, leaving the queue
untouched. -/
def xQueueSend (q : BoundedQueue) (msg : Nat) : Bool × BoundedQueue :=
  if q.count = q.capacity then
    (false, q)
  else
    (true,
     { q with
        storage := q.storage.set ((q.head + q.count) % q.capacity) msg,
        count := q.count + 1 })

/-- Modelled from the spec: `receive(timeout)` — if a message is present the
oldest one is popped (head advances circularly, `count` decrements); `none`
is the "empty" case, in which the consumer (whose timeout is infinite)
blocks. -/
def xQueueReceive (q : BoundedQueue) : Option (Nat × BoundedQueue) :=
  if q.count = 0 then
    none
  else
    some (q.storage.getD q.head 0,
      { q with head := (q.head + 1) % q.capacity, count := q.count - 1 })

/-- A sequence of non-blocking sends, performed left to right. -/
def sendAll (q : BoundedQueue) (msgs : List Nat) : BoundedQueue :=
  msgs.foldl (fun st m => (xQueueSend st m).2) q

/-- `n` consecutive receives; stops early only if the queue empties. -/
def receiveAll : BoundedQueue → Nat → List Nat × BoundedQueue
  | q, 0 => ([], q)
  | q, n + 1 =>
    match xQueueReceive q with
    | none => ([], q)
    | some (v, q') =>
      let r := receiveAll q' n
      (v :: r.1, r.2)

/-- The freshly created queue of `main_blinky`:
`xQueueCreate( mainQUEUE_LENGTH, sizeof( uint32_t ) )` — two empty
4-byte slots. -/
def initialQueue : BoundedQueue :=
  { capacity := mainQUEUE_LENGTH
    storage := List.replicate mainQUEUE_LENGTH 0
    head := 0
    count := 0 }

/-! ## The producer task `prvQueueSendTask` and the timer callback -/

/-- A queue-directed action recorded in a task trace: the tag sent and the
block time passed to `xQueueSend`. -/
inductive QueueAction
  | sendTag (tag : Nat) (ticksToWait : Nat)
  deriving DecidableEq

/-- Modelled from the FreeRTOS contract as the spec states it (section 4.5):
`vTaskDelayUntil` advances the caller-held reference wake time by exactly the
block time and blocks until that absolute tick — "block until
reference + N·period", not "block until now + period".  The returned value is
the updated reference, which is also the tick at which the task wakes. -/
def vTaskDelayUntil (pxPreviousWakeTime : Nat) (xTimeIncrement : Nat) : Nat :=
  pxPreviousWakeTime + xTimeIncrement

/-- The loop of `prvQueueSendTask` (main_blinky.c lines 316-329), run for one
entry of `execTimes` per iteration.  The state threaded between iterations is
exactly the local variable `xNextWakeTime`; each iteration delays until the
updated reference and then sends `mainVALUE_SENT_FROM_TASK` with block time
0.  Each entry of `execTimes` is the running time the iteration body happens
to take; it appears nowhere in the computation — the source never reads the
current tick inside the loop — which is what makes the schedule drift-free.
The trace records, per iteration, the wake tick and the send performed. -/
def prvQueueSendTask_loop : Nat → List Nat → List (Nat × QueueAction)
  | _, [] => []
  | xNextWakeTime, _execTime :: rest =>
    let woken := vTaskDelayUntil xNextWakeTime mainTASK_SEND_FREQUENCY_MS
    (woken, QueueAction.sendTag mainVALUE_SENT_FROM_TASK 0) ::
      prvQueueSendTask_loop woken rest

/-- `prvQueueSendTask` initialises `xNextWakeTime = xTaskGetTickCount()`
exactly once, before its loop, then runs the loop. -/
def prvQueueSendTask_run (startTick : Nat) (execTimes : List Nat) :
    List (Nat × QueueAction) :=
  prvQueueSendTask_loop startTick execTimes

/-- The software timer callback `prvQueueSendTimerCallback` (main_blinky.c
lines 333-349): one non-blocking send of `mainVALUE_SENT_FROM_TIMER`; the
returned status of `xQueueSend` is discarded.  The result is the queue after
the attempt and the trace of actions the callback performs. -/
def prvQueueSendTimerCallback (q : BoundedQueue) : BoundedQueue × List QueueAction :=
  ((xQueueSend q mainVALUE_SENT_FROM_TIMER).2,
   [QueueAction.sendTag mainVALUE_SENT_FROM_TIMER 0])

/-! ## Startup: `main_blinky` (main_blinky.c lines 235-300)

The startup function is embedded as the list of observable steps it
performs, as a function of which resource creations succeed.  A non-null
handle from `xQueueCreate` / `xSemaphoreCreateMutex` / `xTimerCreate` is a
`true` outcome.  `startScheduler` is non-returning; `haltForever` is an
empty infinite loop. -/

/-- The run functions the program could hand to `xTaskCreate`.  Only the
first five are ever created by `main_blinky`; `queueSend` and `queueReceive`
name `prvQueueSendTask` and `prvQueueReceiveTask`, which are defined in the
file but never passed to `xTaskCreate`. -/
inductive TaskBody
  | printStatus
  | convertTemperature
  | multiplyLargeNumbers
  | binarySearch
  | resetHandler
  | queueSend
  | queueReceive
  deriving DecidableEq

/-- One observable step of `main_blinky`. -/
inductive StartupStep
  | createQueue (uxQueueLength itemSize : Nat)
  | createMutex
  | printLine (s : String)
  | createTask (body : TaskBody) (priority : Nat)
  | createTimer (period : Nat) (autoReload : Bool)
  | startTimer
  | startScheduler
  | haltForever
  deriving DecidableEq

/-- The startup sequence of `main_blinky`: create the queue (2 slots of 4
bytes), then the mutex; if mutex creation failed, print the diagnostic and
halt; otherwise, if the queue was created, create the five tasks Task1-Task5
(Task5 at priority 2, the others at priority 1), create the auto-reload
timer, start it if its creation succeeded, and start the scheduler (which
does not return); if the queue was not created, fall through to the empty
infinite loop. -/
def main_blinky (queueOk mutexOk timerOk : Bool) : List StartupStep :=
  StartupStep.createQueue mainQUEUE_LENGTH 4 ::
  StartupStep.createMutex ::
  (if mutexOk = false then
    [StartupStep.printLine "Failed to create mutex!\n",
     StartupStep.haltForever]
  else if queueOk then
    [StartupStep.createTask TaskBody.printStatus 1,
     StartupStep.createTask TaskBody.convertTemperature 1,
     StartupStep.createTask TaskBody.multiplyLargeNumbers 1,
     StartupStep.createTask TaskBody.binarySearch 1,
     StartupStep.createTask TaskBody.resetHandler 2,
     StartupStep.createTimer mainTIMER_SEND_FREQUENCY_MS true] ++
    (if timerOk then [StartupStep.startTimer] else []) ++
    [StartupStep.startScheduler]
  else
    [StartupStep.haltForever])

/-! ## insertion_sort.c: `triInsertion`

The array is embedded as a `List Int` (C `int` values; the function only
compares and copies elements, so no arithmetic overflow is involved), and
`taille` as its length. -/

/-- The inner `while (j >= 0 && tableau[j] > cle)` loop of `triInsertion`
(insertion_sort.c lines 12-16), which scans the already-sorted prefix from
the right: `rev` is the not-yet-scanned part of the prefix in reverse order
(its head is `tableau[j]`), `moved` holds the elements already shifted one
slot to the right.  While the scanned element exceeds the key it is shifted
onto `moved`; at the first element not exceeding the key — or at the left
end of the array, when `j` reaches `-1` — the key is written into the
hole (`tableau[j + 1] = cle`). -/
def triInsertionShift (cle : Int) : List Int → List Int → List Int
  | [], moved => cle :: moved
  | x :: rev, moved =>
    if x > cle then triInsertionShift cle rev (x :: moved)
    else (x :: rev).reverse ++ cle :: moved

/-- One iteration of the outer loop of `triInsertion`: insert the key
`cle = tableau[i]` into the sorted prefix `tableau[0..i-1]`. -/
def triInsertionStep (cle : Int) (sortedPre : List Int) : List Int :=
  triInsertionShift cle sortedPre.reverse []

/-- The outer `for (i = 1; i < taille; i++)` loop: the first argument is the
already-sorted prefix `tableau[0..i-1]`, the second the untouched suffix
`tableau[i..]`. -/
def triInsertionLoop : List Int → List Int → List Int
  | p, [] => p
  | p, cle :: rest => triInsertionLoop (triInsertionStep cle p) rest

/-- `triInsertion(tableau, taille)`.  The outer loop starts at `i = 1`, so
the initial sorted prefix is the single element `tableau[0]`; an empty array
(`taille ≤ 0` in C) is left unchanged.  The embedding is structurally
recursive, so the function terminates on every input. -/
def triInsertion : List Int → List Int
  | [] => []
  | x :: xs => triInsertionLoop [x] xs

end DosSantos

namespace DosSantos

/-- Unfolding equation for one iteration of the `Task4_BinarySearch` loop. -/
theorem task4_loop_succ (low high : Int) (fuel : Nat) :
    task4_loop low high (fuel + 1) =
      if low ≤ high then
        if task4_sortedList.getD ((low + high) / 2).toNat 0 = task4_target then
          some ((low + high) / 2)
        else if task4_sortedList.getD ((low + high) / 2).toNat 0 < task4_target then
          task4_loop ((low + high) / 2 + 1) high fuel
        else
          task4_loop low ((low + high) / 2 - 1) fuel
      else some (-1) := rfl

/-- A terminated run of the loop is unaffected by extra fuel. -/
theorem task4_loop_fuel_mono :
    ∀ fuel low high r, task4_loop low high fuel = some r →
      task4_loop low high (fuel + 1) = some r := by
  intro fuel
  induction fuel with
  | zero => intro low high r h; simp [task4_loop] at h
  | succ g ihg =>
    intro low high r h
    rw [task4_loop_succ] at h
    rw [task4_loop_succ]
    split_ifs at h ⊢ with h1 h2 h3
    · exact h
    · exact ihg _ _ _ h
    · exact ihg _ _ _ h
    · exact h

/-- C10: the search in `Task4_BinarySearch` never succeeds: the array holds only
even values `2·i` and the target 25 is odd, so every iteration of the outer
loop ends with `index = -1` and the task reports "not found".  Formally: the
inner loop terminates (within 50 iterations, and with any larger fuel) with
result `-1`, and the printed report is the "not found" line, never the
"found" line. -/
theorem task4_never_finds :
    ∀ extra : Nat,
      task4_loop 0 49 (50 + extra) = some (-1) ∧
      task4_iteration (50 + extra) = some "Element 25 not found\n" := by
  have hloop : ∀ extra : Nat, task4_loop 0 49 (50 + extra) = some (-1) := by
    intro extra
    induction extra with
    | zero => decide
    | succ n ih =>
      have e : 50 + (n + 1) = (50 + n) + 1 := by omega
      rw [e]
      exact task4_loop_fuel_mono (50 + n) 0 49 (-1) ih
  intro extra
  refine ⟨hloop extra, ?_⟩
  simp [task4_iteration, hloop extra]

/-- C3: the consumer emits exactly one classified report per delivered
message — the run over any message list is the elementwise map of the loop
body, so no state flows between iterations — and the body prints the
"from task" line iff the tag is 100, the "from timer" line iff the tag is
200, and the "unexpected" line for every other 32-bit value. -/
theorem consumer_classifies_each_message :
    (∀ msgs : List Nat,
       prvQueueReceiveTask_run msgs = msgs.map prvQueueReceiveTask_body) ∧
    (∀ v : Nat, v < 2 ^ 32 →
      (prvQueueReceiveTask_body v = "Message received from task\n" ↔
        v = mainVALUE_SENT_FROM_TASK) ∧
      (prvQueueReceiveTask_body v = "Message received from software timer\n" ↔
        v = mainVALUE_SENT_FROM_TIMER) ∧
      (prvQueueReceiveTask_body v = "Unexpected message\n" ↔
        v ≠ mainVALUE_SENT_FROM_TASK ∧ v ≠ mainVALUE_SENT_FROM_TIMER)) := by
  constructor
  · intro msgs
    induction msgs with
    | nil => rfl
    | cons v rest ih => simp [prvQueueReceiveTask_run, ih]
  · intro v _
    unfold prvQueueReceiveTask_body mainVALUE_SENT_FROM_TASK mainVALUE_SENT_FROM_TIMER
    by_cases h1 : v = 100 <;> by_cases h2 : v = 200 <;> simp_all

/-- Witness for C3 at the concrete tags 100, 200 and 7. -/
theorem consumer_classifies_each_message_witness :
    ((7 : Nat) < 2 ^ 32 ∧
      (prvQueueReceiveTask_body 7 = "Unexpected message\n" ↔
        (7 : Nat) ≠ mainVALUE_SENT_FROM_TASK ∧ (7 : Nat) ≠ mainVALUE_SENT_FROM_TIMER)) ∧
    prvQueueReceiveTask_run [100, 200, 7] =
      ["Message received from task\n", "Message received from software timer\n",
       "Unexpected message\n"] :=
  ⟨⟨by norm_num, (consumer_classifies_each_message.2 7 (by norm_num)).2.2⟩,
   (consumer_classifies_each_message.1 [100, 200, 7]).trans (by rfl)⟩

/-- C5: every iteration of `Task5_ResetHandler` begins by taking the mutex
with an unbounded wait, then prompts; a parsed value 1 yields the reset
acknowledgement report, any other parsed integer yields the pass-through
report, an unparseable line yields the invalid-input report followed by
discarding the rest of the line; and on every path the mutex is released
exactly once, as the last step before the end-of-iteration delay. -/
theorem task5_protocol (scanfResult : Option Int) :
    (Task5_ResetHandler_iteration scanfResult).head? =
        some (Task5Step.takeMutex portMAX_DELAY) ∧
    (Task5_ResetHandler_iteration scanfResult)[1]? =
        some (Task5Step.printT "Enter \x271\x27 to RESET, or \x270\x27 to continue: ") ∧
    (∀ v : Int, scanfResult = some v → v = 1 →
       Task5Step.printT ("Reset received: " ++ toString v ++ "\n") ∈
         Task5_ResetHandler_iteration scanfResult) ∧
    (∀ v : Int, scanfResult = some v → v ≠ 1 →
       Task5Step.printT ("Reset value: " ++ toString v ++ "\n") ∈
         Task5_ResetHandler_iteration scanfResult) ∧
    (scanfResult = none →
       Task5Step.printT "Invalid input. Please enter a valid number.\n" ∈
           Task5_ResetHandler_iteration scanfResult ∧
         Task5Step.discardLine ∈ Task5_ResetHandler_iteration scanfResult) ∧
    (Task5_ResetHandler_iteration scanfResult).count Task5Step.giveMutex = 1 ∧
    (∃ front : List Task5Step,
       Task5_ResetHandler_iteration scanfResult =
         front ++ [Task5Step.giveMutex, Task5Step.delay (pdMS_TO_TICKS 200)] ∧
       Task5Step.giveMutex ∉ front) := by
  match scanfResult with
  | none =>
    refine ⟨by simp [Task5_ResetHandler_iteration], by simp [Task5_ResetHandler_iteration],
      by simp, by simp,
      fun _ => ⟨by simp [Task5_ResetHandler_iteration], by simp [Task5_ResetHandler_iteration]⟩,
      by decide,
      ⟨[Task5Step.takeMutex portMAX_DELAY,
        Task5Step.printT "Enter \x271\x27 to RESET, or \x270\x27 to continue: ",
        Task5Step.printT "Invalid input. Please enter a valid number.\n",
        Task5Step.discardLine], by decide, by decide⟩⟩
  | some v =>
    by_cases hv : v = 1
    · subst hv
      refine ⟨by simp [Task5_ResetHandler_iteration], by simp [Task5_ResetHandler_iteration],
        ?_, ?_, by simp, by decide, ?_⟩
      · intro w hw _
        obtain rfl : (1 : Int) = w := by simpa using hw
        simp [Task5_ResetHandler_iteration]
      · intro w hw hne
        obtain rfl : (1 : Int) = w := by simpa using hw
        exact absurd rfl hne
      · exact ⟨[Task5Step.takeMutex portMAX_DELAY,
          Task5Step.printT "Enter \x271\x27 to RESET, or \x270\x27 to continue: ",
          Task5Step.printT ("Reset received: " ++ toString (1 : Int) ++ "\n")],
          by simp [Task5_ResetHandler_iteration], by decide⟩
    · refine ⟨by simp [Task5_ResetHandler_iteration], by simp [Task5_ResetHandler_iteration],
        ?_, ?_, by simp, ?_, ?_⟩
      · intro w hw h1
        obtain rfl : v = w := by simpa using hw
        exact absurd h1 hv
      · intro w hw _
        obtain rfl : v = w := by simpa using hw
        simp [Task5_ResetHandler_iteration, hv]
      · simp [Task5_ResetHandler_iteration, hv, List.count_cons]
      · exact ⟨[Task5Step.takeMutex portMAX_DELAY,
          Task5Step.printT "Enter \x271\x27 to RESET, or \x270\x27 to continue: ",
          Task5Step.printT ("Reset value: " ++ toString v ++ "\n")],
          by simp [Task5_ResetHandler_iteration, hv], by simp⟩

/-- Witness for C5 at the parsed input 1 (scenario C, reset acknowledgement)
and at an unparseable line (invalid input is reported, the line is discarded,
and the mutex is still released). -/
theorem task5_protocol_witness :
    (Task5Step.printT ("Reset received: " ++ toString (1 : Int) ++ "\n") ∈
       Task5_ResetHandler_iteration (some 1)) ∧
    (Task5Step.printT "Invalid input. Please enter a valid number.\n" ∈
       Task5_ResetHandler_iteration none) ∧
    (Task5Step.discardLine ∈ Task5_ResetHandler_iteration none) ∧
    (Task5_ResetHandler_iteration none).count Task5Step.giveMutex = 1 :=
  ⟨(task5_protocol (some 1)).2.2.1 1 rfl rfl,
   ((task5_protocol none).2.2.2.2.1 rfl).1,
   ((task5_protocol none).2.2.2.2.1 rfl).2,
   (task5_protocol none).2.2.2.2.2.1⟩

/-! ## Queue lemmas -/

/-- Distinct circular-buffer offsets below the capacity map to distinct
slots. -/
theorem mod_shift_inj {cap h i j : Nat} (hi : i < cap) (hj : j < cap)
    (hmod : (h + i) % cap = (h + j) % cap) : i = j := by
  have hmod' : h + i ≡ h + j [MOD cap] := hmod
  have hij : i % cap = j % cap := Nat.ModEq.add_left_cancel' h hmod'
  rwa [Nat.mod_eq_of_lt hi, Nat.mod_eq_of_lt hj] at hij

/-- A queue holds as many messages as its count. -/
theorem BoundedQueue.contents_length (q : BoundedQueue) :
    q.contents.length = q.count := by
  simp [BoundedQueue.contents]

/-- A full queue rejects a non-blocking send and is left untouched. -/
theorem xQueueSend_full (q : BoundedQueue) (m : Nat)
    (hfull : q.count = q.capacity) : xQueueSend q m = (false, q) := by
  simp [xQueueSend, hfull]

/-- A send into a non-full well-formed queue succeeds and appends the
message at the tail of the stored sequence. -/
theorem xQueueSend_ok (q : BoundedQueue) (m : Nat) (hwf : q.WF)
    (hlt : q.count < q.capacity) :
    (xQueueSend q m).1 = true ∧
    (xQueueSend q m).2.WF ∧
    (xQueueSend q m).2.contents = q.contents ++ [m] ∧
    (xQueueSend q m).2.count = q.count + 1 ∧
    (xQueueSend q m).2.capacity = q.capacity := by
  obtain ⟨hlen, hhead, hcnt⟩ := hwf
  have hne : q.count ≠ q.capacity := Nat.ne_of_lt hlt
  have hcap0 : 0 < q.capacity := lt_of_le_of_lt (Nat.zero_le _) hhead
  refine ⟨by simp [xQueueSend, hne],
    ⟨by simp [xQueueSend, hne, hlen], by simp [xQueueSend, hne, hhead],
     by simp [xQueueSend, hne]; omega⟩,
    ?_, by simp [xQueueSend, hne], by simp [xQueueSend, hne]⟩
  simp only [xQueueSend, hne, ite_false, if_neg, BoundedQueue.contents,
    not_false_iff]
  rw [List.range_succ, List.map_append]
  congr 1
  · apply List.map_congr_left
    intro i hi
    have hi' : i < q.count := List.mem_range.mp hi
    have hne' : (q.head + i) % q.capacity ≠ (q.head + q.count) % q.capacity := by
      intro hmod
      have := mod_shift_inj (lt_trans hi' hlt) hlt hmod
      omega
    rw [List.getD_eq_getElem?_getD, List.getD_eq_getElem?_getD,
      List.getElem?_set_ne (Ne.symm hne')]
  · simp only [List.map_cons, List.map_nil]
    have hpos : (q.head + q.count) % q.capacity < q.storage.length := by
      rw [hlen]; exact Nat.mod_lt _ hcap0
    rw [List.getD_eq_getElem?_getD, List.getElem?_set_eq_of_lt _ hpos]
    rfl

/-- Receiving from a nonempty well-formed queue pops the oldest message. -/
theorem xQueueReceive_ok (q : BoundedQueue) (hwf : q.WF) (hne : q.count ≠ 0) :
    ∃ v q', xQueueReceive q = some (v, q') ∧ q'.WF ∧
      q.contents = v :: q'.contents ∧ q'.count = q.count - 1 ∧
      q'.capacity = q.capacity := by
  obtain ⟨hlen, hhead, hcnt⟩ := hwf
  have hcap0 : 0 < q.capacity := lt_of_le_of_lt (Nat.zero_le _) hhead
  refine ⟨q.storage.getD q.head 0,
    { q with head := (q.head + 1) % q.capacity, count := q.count - 1 },
    by simp [xQueueReceive, hne], ⟨by simpa using hlen, by simpa using Nat.mod_lt _ hcap0, by simp; omega⟩,
    ?_, rfl, rfl⟩
  obtain ⟨c, hc⟩ := Nat.exists_eq_succ_of_ne_zero hne
  simp only [BoundedQueue.contents, hc]
  rw [List.range_succ_eq_map]
  simp only [List.map_cons, List.map_map]
  congr 1
  · rw [Nat.add_zero, Nat.mod_eq_of_lt hhead]
  · simp only [Nat.succ_sub_one]
    apply List.map_congr_left
    intro i hi
    simp only [Function.comp_apply]
    congr 1
    rw [Nat.mod_add_mod]
    congr 1
    omega

/-- Draining a well-formed queue with exactly `count` receives returns the
stored messages oldest-first. -/
theorem receiveAll_drains :
    ∀ n (q : BoundedQueue), q.WF → q.count = n →
      (receiveAll q n).1 = q.contents := by
  intro n
  induction n with
  | zero =>
    intro q _ h0
    simp [receiveAll, BoundedQueue.contents, h0]
  | succ c ih =>
    intro q hwf hc
    obtain ⟨v, q', hrec, hwf', hcont, hcnt, _⟩ :=
      xQueueReceive_ok q hwf (by omega)
    simp only [receiveAll, hrec]
    rw [hcont, ih q' hwf' (by omega)]

/-- A sequence of sends that fits in the free space all succeeds and appends
the messages, in order, at the tail of the stored sequence. -/
theorem sendAll_appends :
    ∀ msgs (q : BoundedQueue), q.WF → q.count + msgs.length ≤ q.capacity →
      (sendAll q msgs).WF ∧
      (sendAll q msgs).contents = q.contents ++ msgs ∧
      (sendAll q msgs).count = q.count + msgs.length ∧
      (sendAll q msgs).capacity = q.capacity := by
  intro msgs
  induction msgs with
  | nil =>
    intro q hwf _
    refine ⟨hwf, by simp [sendAll], by simp [sendAll], rfl⟩
  | cons m rest ih =>
    intro q hwf hcap
    have hlt : q.count < q.capacity := by
      simp only [List.length_cons] at hcap; omega
    obtain ⟨_, hwf', hcont, hcnt, hcap'⟩ := xQueueSend_ok q m hwf hlt
    have hstep : sendAll q (m :: rest) = sendAll (xQueueSend q m).2 rest := rfl
    have hfit : (xQueueSend q m).2.count + rest.length ≤
        (xQueueSend q m).2.capacity := by
      rw [hcnt, hcap']
      simp only [List.length_cons] at hcap; omega
    obtain ⟨hwfA, hcontA, hcntA, hcapA⟩ := ih (xQueueSend q m).2 hwf' hfit
    refine ⟨hstep ▸ hwfA, ?_, ?_, ?_⟩
    · rw [hstep, hcontA, hcont]
      simp
    · rw [hstep, hcntA, hcnt]
      simp [Nat.add_assoc, Nat.add_comm 1 rest.length]
    · rw [hstep, hcapA, hcap']

/-- C7: the queue is FIFO.  For every well-formed queue and every batch of
sends that fits within the remaining capacity (in particular within the
capacity 2 of the queue of this program), every send succeeds, the stored
sequence becomes the old contents followed by the new messages in send
order, and draining the queue returns exactly that sequence — receives
return messages in the exact order they were sent. -/
theorem queue_fifo (q : BoundedQueue) (msgs : List Nat) (hwf : q.WF)
    (hcap : q.count + msgs.length ≤ q.capacity) :
    (sendAll q msgs).contents = q.contents ++ msgs ∧
    (receiveAll (sendAll q msgs) (q.count + msgs.length)).1 =
      q.contents ++ msgs := by
  obtain ⟨hwfA, hcontA, hcntA, _⟩ := sendAll_appends msgs q hwf hcap
  exact ⟨hcontA, by rw [receiveAll_drains (q.count + msgs.length)
    (sendAll q msgs) hwfA hcntA, hcontA]⟩

/-- Witness for C7: scenario A — sending 100 then 200 into the empty 2-slot
queue created at startup makes two consecutive receives return 100 then 200,
which the consumer classifies as "from producer" then "from timer". -/
theorem queue_fifo_witness :
    initialQueue.WF ∧
    initialQueue.count + [mainVALUE_SENT_FROM_TASK,
      mainVALUE_SENT_FROM_TIMER].length ≤ initialQueue.capacity ∧
    (receiveAll (sendAll initialQueue
        [mainVALUE_SENT_FROM_TASK, mainVALUE_SENT_FROM_TIMER]) 2).1 =
      [mainVALUE_SENT_FROM_TASK, mainVALUE_SENT_FROM_TIMER] ∧
    (receiveAll (sendAll initialQueue
        [mainVALUE_SENT_FROM_TASK, mainVALUE_SENT_FROM_TIMER]) 2).1.map
        prvQueueReceiveTask_body =
      ["Message received from task\n",
       "Message received from software timer\n"] := by
  have h := (queue_fifo initialQueue
    [mainVALUE_SENT_FROM_TASK, mainVALUE_SENT_FROM_TIMER]
    (by decide) (by decide)).2
  refine ⟨by decide, by decide, ?_, ?_⟩
  · simpa using h
  · have h2 : (receiveAll (sendAll initialQueue
        [mainVALUE_SENT_FROM_TASK, mainVALUE_SENT_FROM_TIMER]) 2).1 =
        [mainVALUE_SENT_FROM_TASK, mainVALUE_SENT_FROM_TIMER] := by simpa using h
    rw [h2]
    rfl

/-- C8: a non-blocking send on a queue whose count equals its capacity fails
immediately with the "full" status and leaves the queue record — hence the
stored messages, their order, and the count — exactly unchanged. -/
theorem queue_full_send_rejected (q : BoundedQueue) (m : Nat)
    (hfull : q.count = q.capacity) :
    (xQueueSend q m).1 = false ∧
    (xQueueSend q m).2 = q ∧
    (xQueueSend q m).2.contents = q.contents ∧
    (xQueueSend q m).2.count = q.count := by
  have h := xQueueSend_full q m hfull
  exact ⟨by rw [h], by rw [h], by rw [h], by rw [h]⟩

/-- Witness for C8: scenario B — after filling the 2-slot startup queue with
100 then 200, a third non-blocking send of 7 returns the "full" failure and
the contents remain exactly [100, 200]. -/
theorem queue_full_send_rejected_witness :
    (sendAll initialQueue [mainVALUE_SENT_FROM_TASK,
        mainVALUE_SENT_FROM_TIMER]).count =
      (sendAll initialQueue [mainVALUE_SENT_FROM_TASK,
        mainVALUE_SENT_FROM_TIMER]).capacity ∧
    (xQueueSend (sendAll initialQueue [mainVALUE_SENT_FROM_TASK,
        mainVALUE_SENT_FROM_TIMER]) 7).1 = false ∧
    (xQueueSend (sendAll initialQueue [mainVALUE_SENT_FROM_TASK,
        mainVALUE_SENT_FROM_TIMER]) 7).2.contents =
      [mainVALUE_SENT_FROM_TASK, mainVALUE_SENT_FROM_TIMER] := by
  have h := queue_full_send_rejected (sendAll initialQueue
    [mainVALUE_SENT_FROM_TASK, mainVALUE_SENT_FROM_TIMER]) 7 (by decide)
  exact ⟨by decide, h.1, h.2.2.1.trans (by decide)⟩

/-- C4: on each expiry the timer callback performs exactly one queue send
— of the `mainVALUE_SENT_FROM_TIMER` tag with block time 0, hence
non-blocking — and nothing else; when the queue has room the tag is
enqueued, and when the queue is full the failure is silently dropped:
the queue is returned unchanged and no other action is performed. -/
theorem timer_callback_one_send (q : BoundedQueue) (hwf : q.WF) :
    (prvQueueSendTimerCallback q).2 =
      [QueueAction.sendTag mainVALUE_SENT_FROM_TIMER 0] ∧
    (q.count < q.capacity →
       (prvQueueSendTimerCallback q).1.contents =
         q.contents ++ [mainVALUE_SENT_FROM_TIMER] ∧
       (prvQueueSendTimerCallback q).1.WF) ∧
    (q.count = q.capacity → (prvQueueSendTimerCallback q).1 = q) := by
  refine ⟨rfl, ?_, ?_⟩
  · intro hlt
    obtain ⟨_, hwf', hcont, _, _⟩ :=
      xQueueSend_ok q mainVALUE_SENT_FROM_TIMER hwf hlt
    exact ⟨hcont, hwf'⟩
  · intro hfull
    have h := xQueueSend_full q mainVALUE_SENT_FROM_TIMER hfull
    show (xQueueSend q mainVALUE_SENT_FROM_TIMER).2 = q
    rw [h]

/-- Witness for C4: on the empty startup queue the callback enqueues the 200
tag; on the full queue it returns the queue unchanged; in both cases its
trace is the single non-blocking send. -/
theorem timer_callback_one_send_witness :
    (prvQueueSendTimerCallback initialQueue).2 =
      [QueueAction.sendTag mainVALUE_SENT_FROM_TIMER 0] ∧
    (prvQueueSendTimerCallback initialQueue).1.contents =
      [mainVALUE_SENT_FROM_TIMER] ∧
    (prvQueueSendTimerCallback (sendAll initialQueue
        [mainVALUE_SENT_FROM_TASK, mainVALUE_SENT_FROM_TIMER])).1 =
      sendAll initialQueue [mainVALUE_SENT_FROM_TASK,
        mainVALUE_SENT_FROM_TIMER] := by
  refine ⟨(timer_callback_one_send initialQueue (by decide)).1, ?_, ?_⟩
  · have h := ((timer_callback_one_send initialQueue (by decide)).2.1
      (by decide)).1
    simpa using h
  · exact (timer_callback_one_send _ (by decide)).2.2 (by decide)

/-! ## Producer periodicity -/

/-- The producer trace has one entry per loop iteration. -/
theorem prvQueueSendTask_loop_length :
    ∀ (execTimes : List Nat) (x : Nat),
      (prvQueueSendTask_loop x execTimes).length = execTimes.length := by
  intro execTimes
  induction execTimes with
  | nil => intro x; rfl
  | cons d rest ih =>
    intro x
    simp [prvQueueSendTask_loop, ih]

/-- The entry at index `i` of the producer trace: the task wakes at
`x + (i+1)·period` and performs one non-blocking send of the producer tag,
whatever the iteration execution times are. -/
theorem prvQueueSendTask_loop_get :
    ∀ (execTimes : List Nat) (x i : Nat), i < execTimes.length →
      (prvQueueSendTask_loop x execTimes)[i]? =
        some (x + (i + 1) * mainTASK_SEND_FREQUENCY_MS,
          QueueAction.sendTag mainVALUE_SENT_FROM_TASK 0) := by
  intro execTimes
  induction execTimes with
  | nil =>
    intro x i hi
    simp at hi
  | cons d rest ih =>
    intro x i hi
    match i with
    | 0 =>
      simp [prvQueueSendTask_loop, vTaskDelayUntil]
    | j + 1 =>
      have hj : j < rest.length := by simpa using hi
      have := ih (vTaskDelayUntil x mainTASK_SEND_FREQUENCY_MS) j hj
      simp only [prvQueueSendTask_loop, List.getElem?_cons_succ]
      rw [this]
      congr 2
      simp only [vTaskDelayUntil]
      ring

/-- C6: the producer is drift-free.  It records the reference wake time once
before the loop; for every k ≥ 1 and every choice of per-iteration execution
times, the k-th wake happens exactly at `reference + k·period` (so certainly
within one tick of it), independent of how long earlier iterations ran, and
at each wake the producer performs exactly one non-blocking send of
`mainVALUE_SENT_FROM_TASK`. -/
theorem producer_drift_free (reference : Nat) (execTimes : List Nat)
    (k : Nat) (hk : 1 ≤ k) (hlen : k ≤ execTimes.length) :
    (prvQueueSendTask_run reference execTimes).length = execTimes.length ∧
    (prvQueueSendTask_run reference execTimes)[k - 1]? =
      some (reference + k * mainTASK_SEND_FREQUENCY_MS,
        QueueAction.sendTag mainVALUE_SENT_FROM_TASK 0) := by
  refine ⟨prvQueueSendTask_loop_length execTimes reference, ?_⟩
  have hi : k - 1 < execTimes.length := by omega
  have h := prvQueueSendTask_loop_get execTimes reference (k - 1) hi
  have he : k - 1 + 1 = k := by omega
  rw [he] at h
  exact h

/-- Witness for C6 at reference 1000, execution times [3, 47, 5] and k = 2:
the second wake is at tick 1000 + 2·200 = 1400 even though the first
iteration body ran for 47 ticks. -/
theorem producer_drift_free_witness :
    1 ≤ 2 ∧ 2 ≤ [3, 47, 5].length ∧
    (prvQueueSendTask_run 1000 [3, 47, 5]).length = 3 ∧
    (prvQueueSendTask_run 1000 [3, 47, 5])[1]? =
      some (1400, QueueAction.sendTag mainVALUE_SENT_FROM_TASK 0) := by
  have h := producer_drift_free 1000 [3, 47, 5] 2 (by norm_num)
    (by simp)
  refine ⟨by norm_num, by simp, by simpa using h.1, ?_⟩
  have h2 := h.2
  norm_num [mainTASK_SEND_FREQUENCY_MS, pdMS_TO_TICKS] at h2
  exact h2

/-! ## Startup-sequence theorems -/

/-- C2 counterexample: the very first startup step of `main_blinky` is the
creation of the queue, not of the mutex — the mutex is only created second —
so the claimed order "create Mutex first, only then create Queue" is false
on the code. -/
theorem startup_mutex_not_first :
    (main_blinky true true true)[0]? =
        some (StartupStep.createQueue mainQUEUE_LENGTH 4) ∧
    (main_blinky true true true)[0]? ≠ some StartupStep.createMutex ∧
    (main_blinky true true true)[1]? = some StartupStep.createMutex := by
  refine ⟨rfl, ?_, by simp [main_blinky]⟩
  decide

/-- C2 (amended): the startup sequence creates the Queue first and the Mutex
second; if Mutex creation fails it fails fast (prints the diagnostic and
halts) before creating any Task or the Timer and without starting the
Scheduler; otherwise, if Queue creation succeeded, it creates the five tasks
Task1-Task5, creates the auto-reload Timer, starts it when its creation
succeeded, and finally starts the Scheduler; if Queue creation failed it
enters an inert halted state. -/
theorem startup_sequence (queueOk mutexOk timerOk : Bool) :
    (main_blinky queueOk mutexOk timerOk)[0]? =
        some (StartupStep.createQueue mainQUEUE_LENGTH 4) ∧
    (main_blinky queueOk mutexOk timerOk)[1]? =
        some StartupStep.createMutex ∧
    (mutexOk = false →
       StartupStep.printLine "Failed to create mutex!\n" ∈
           main_blinky queueOk mutexOk timerOk ∧
         (main_blinky queueOk mutexOk timerOk).getLast? =
           some StartupStep.haltForever ∧
         (∀ b p, StartupStep.createTask b p ∉
           main_blinky queueOk mutexOk timerOk) ∧
         StartupStep.startScheduler ∉ main_blinky queueOk mutexOk timerOk ∧
         (∀ per ar, StartupStep.createTimer per ar ∉
           main_blinky queueOk mutexOk timerOk)) ∧
    (mutexOk = true → queueOk = true →
       main_blinky queueOk mutexOk timerOk =
         [StartupStep.createQueue mainQUEUE_LENGTH 4,
          StartupStep.createMutex,
          StartupStep.createTask TaskBody.printStatus 1,
          StartupStep.createTask TaskBody.convertTemperature 1,
          StartupStep.createTask TaskBody.multiplyLargeNumbers 1,
          StartupStep.createTask TaskBody.binarySearch 1,
          StartupStep.createTask TaskBody.resetHandler 2,
          StartupStep.createTimer mainTIMER_SEND_FREQUENCY_MS true] ++
         (if timerOk then [StartupStep.startTimer] else []) ++
         [StartupStep.startScheduler]) ∧
    (mutexOk = true → queueOk = false →
       main_blinky queueOk mutexOk timerOk =
         [StartupStep.createQueue mainQUEUE_LENGTH 4,
          StartupStep.createMutex, StartupStep.haltForever]) := by
  refine ⟨rfl, by simp [main_blinky], ?_, ?_, ?_⟩
  · intro hm
    subst hm
    refine ⟨by simp [main_blinky], by simp [main_blinky], ?_,
      by simp [main_blinky], ?_⟩
    · intro b p
      simp [main_blinky]
    · intro per ar
      simp [main_blinky]
  · intro hm hq
    subst hm
    subst hq
    cases timerOk <;> rfl
  · intro hm hq
    subst hm
    subst hq
    rfl

/-- Witness for C2 (amended) on the all-successful startup and on a mutex
creation failure. -/
theorem startup_sequence_witness :
    main_blinky true true true =
      [StartupStep.createQueue mainQUEUE_LENGTH 4,
       StartupStep.createMutex,
       StartupStep.createTask TaskBody.printStatus 1,
       StartupStep.createTask TaskBody.convertTemperature 1,
       StartupStep.createTask TaskBody.multiplyLargeNumbers 1,
       StartupStep.createTask TaskBody.binarySearch 1,
       StartupStep.createTask TaskBody.resetHandler 2,
       StartupStep.createTimer mainTIMER_SEND_FREQUENCY_MS true,
       StartupStep.startTimer,
       StartupStep.startScheduler] ∧
    StartupStep.printLine "Failed to create mutex!\n" ∈
      main_blinky true false true ∧
    StartupStep.startScheduler ∉ main_blinky true false true :=
  ⟨((startup_sequence true true true).2.2.2.1 rfl rfl).trans (by decide),
   ((startup_sequence true false true).2.2.1 rfl).1,
   ((startup_sequence true false true).2.2.1 rfl).2.2.2.1⟩

/-- C1 (code bug): `main_blinky` never creates the periodic producer task
`prvQueueSendTask` nor the blocking consumer task `prvQueueReceiveTask`:
whatever the creation outcomes and whatever the priority, no `createTask`
step for either body appears in the startup sequence — even though the
comment block at the top of `main_blinky.c` states that `main_blinky()`
creates them both — so they are never among the scheduled tasks. -/
theorem producer_consumer_tasks_never_created
    (queueOk mutexOk timerOk : Bool) (p : Nat) :
    StartupStep.createTask TaskBody.queueSend p ∉
        main_blinky queueOk mutexOk timerOk ∧
    StartupStep.createTask TaskBody.queueReceive p ∉
        main_blinky queueOk mutexOk timerOk := by
  cases queueOk <;> cases mutexOk <;> cases timerOk <;>
    exact ⟨by simp [main_blinky], by simp [main_blinky]⟩

/-! ## Insertion sort theorems -/

/-- The shift loop produces a permutation of the key, the scanned prefix and
the shifted elements. -/
theorem triInsertionShift_perm (cle : Int) :
    ∀ (rev moved : List Int),
      (triInsertionShift cle rev moved).Perm (cle :: (rev.reverse ++ moved)) := by
  intro rev
  induction rev with
  | nil =>
    intro moved
    simp [triInsertionShift]
  | cons x rev ih =>
    intro moved
    simp only [triInsertionShift]
    split_ifs with hx
    · refine (ih (x :: moved)).trans ?_
      have he : rev.reverse ++ x :: moved = (x :: rev).reverse ++ moved := by
        simp
      rw [he]
    · exact List.perm_middle

/-- Inserting a key into the sorted prefix permutes key-plus-prefix. -/
theorem triInsertionStep_perm (cle : Int) (p : List Int) :
    (triInsertionStep cle p).Perm (cle :: p) := by
  have h := triInsertionShift_perm cle p.reverse []
  simpa [triInsertionStep] using h

/-- The outer loop of `triInsertion` permutes prefix-plus-suffix. -/
theorem triInsertionLoop_perm :
    ∀ (rest p : List Int), (triInsertionLoop p rest).Perm (p ++ rest) := by
  intro rest
  induction rest with
  | nil =>
    intro p
    simp [triInsertionLoop]
  | cons cle rest ih =>
    intro p
    simp only [triInsertionLoop]
    refine (ih (triInsertionStep cle p)).trans ?_
    refine (List.Perm.append_right rest (triInsertionStep_perm cle p)).trans ?_
    exact List.perm_middle.symm

/-- The shift loop keeps the array sorted: if the scanned prefix followed by
the already-shifted elements is sorted and the key is strictly below every
shifted element, the result is sorted. -/
theorem triInsertionShift_sorted (cle : Int) :
    ∀ (rev moved : List Int),
      (rev.reverse ++ moved).Sorted (· ≤ ·) →
      (∀ y ∈ moved, cle < y) →
      (triInsertionShift cle rev moved).Sorted (· ≤ ·) := by
  intro rev
  induction rev with
  | nil =>
    intro moved hs hlt
    simp only [triInsertionShift]
    simp only [List.reverse_nil, List.nil_append] at hs
    exact List.sorted_cons.mpr ⟨fun y hy => le_of_lt (hlt y hy), hs⟩
  | cons x rev ih =>
    intro moved hs hlt
    simp only [triInsertionShift]
    split_ifs with hx
    · apply ih (x :: moved)
      · have he : rev.reverse ++ x :: moved = (x :: rev).reverse ++ moved := by
          simp
        rw [he]
        exact hs
      · intro y hy
        rcases List.mem_cons.mp hy with h | h
        · rw [h]; exact hx
        · exact hlt y h
    · have hxle : x ≤ cle := not_lt.mp hx
      have hs' : List.Pairwise (· ≤ ·) ((rev.reverse ++ [x]) ++ moved) := by
        have he : (x :: rev).reverse ++ moved = (rev.reverse ++ [x]) ++ moved := by
          simp
        rw [← he]
        exact hs
      rw [List.pairwise_append] at hs'
      obtain ⟨hL, hm, hcross⟩ := hs'
      have hax : ∀ a ∈ rev.reverse ++ [x], a ≤ x := by
        rw [List.pairwise_append] at hL
        obtain ⟨_, _, hLx⟩ := hL
        intro a ha
        rcases List.mem_append.mp ha with h | h
        · exact hLx a h x (List.mem_singleton.mpr rfl)
        · rw [List.mem_singleton.mp h]
      show List.Pairwise (· ≤ ·) ((x :: rev).reverse ++ cle :: moved)
      have he2 : (x :: rev).reverse = rev.reverse ++ [x] := by simp
      rw [he2, List.pairwise_append]
      refine ⟨?_, ?_, ?_⟩
      · rw [List.pairwise_append] at hL
        rw [List.pairwise_append]
        exact hL
      · exact List.sorted_cons.mpr ⟨fun y hy => le_of_lt (hlt y hy), hm⟩
      · intro a ha b hb
        rcases List.mem_cons.mp hb with h | h
        · rw [h]
          exact le_trans (hax a ha) hxle
        · exact hcross a ha b h

/-- Inserting into a sorted prefix yields a sorted list. -/
theorem triInsertionStep_sorted (cle : Int) (p : List Int)
    (hp : p.Sorted (· ≤ ·)) : (triInsertionStep cle p).Sorted (· ≤ ·) := by
  apply triInsertionShift_sorted
  · simpa using hp
  · simp

/-- The outer loop preserves sortedness of the prefix. -/
theorem triInsertionLoop_sorted :
    ∀ (rest p : List Int), p.Sorted (· ≤ ·) →
      (triInsertionLoop p rest).Sorted (· ≤ ·) := by
  intro rest
  induction rest with
  | nil =>
    intro p hp
    exact hp
  | cons cle rest ih =>
    intro p hp
    exact ih _ (triInsertionStep_sorted cle p hp)

/-- C9: for every integer array, `triInsertion` terminates (the embedding is
structurally recursive) and returns a nondecreasing rearrangement of its
input: the result is sorted in ascending order and is a permutation of the
original contents (same multiset of elements). -/
theorem triInsertion_sorts (tableau : List Int) :
    (triInsertion tableau).Sorted (· ≤ ·) ∧
    (triInsertion tableau).Perm tableau := by
  match tableau with
  | [] => exact ⟨List.sorted_nil, List.Perm.refl _⟩
  | x :: xs =>
    refine ⟨triInsertionLoop_sorted xs [x] (by simp), ?_⟩
    have h := triInsertionLoop_perm xs [x]
    simpa using h

end DosSantos
